import Mathlib

/-!
Verification of the bitbrowser-script repository.

The Python sources are shallowly embedded as Lean definitions:
pure string/JSON manipulation becomes Lean functions on an inductive JSON
value type; the stateful CDP client becomes explicit state passing over a
client record plus a list of timed receive events; Python exceptions become
`Except PyErr`; `None`-returning fallible code becomes `Option`.
-/

/-- A Python exception class, as far as the embedded code distinguishes them. -/
inductive PyErr where
  | attributeError
  | typeError
  | keyError
  deriving Repr, DecidableEq

/-- A JSON value as produced by `json.load` / `json.loads` (numbers are
modelled as integers: every number this code compares or stores is one). -/
inductive JVal where
  | jnull
  | jbool (b : Bool)
  | jnum (n : Int)
  | jstr (s : String)
  | jarr (elems : List JVal)
  | jobj (fields : List (String × JVal))

/-- Does `hay` start with `needle` (character-wise)? -/
def listStartsWith : List Char → List Char → Bool
  | [], _ => true
  | _ :: _, [] => false
  | a :: xs, b :: ys => a == b && listStartsWith xs ys

/-- Is `needle` a contiguous substring of `hay`?  Embeds Python's
`needle in hay` on strings. -/
def containsSub (needle : List Char) : List Char → Bool
  | [] => listStartsWith needle []
  | c :: rest =>
    if listStartsWith needle (c :: rest) then true
    else containsSub needle rest

/-- Python `s.split(sep)` with a one-character separator, accumulator form. -/
def pySplitAux (sep : Char) : List Char → List Char → List (List Char)
  | [], acc => [acc.reverse]
  | c :: rest, acc =>
    if c == sep then acc.reverse :: pySplitAux sep rest []
    else pySplitAux sep rest (c :: acc)

/-- Python `s.split(sep)` with a one-character separator. -/
def pySplit (s : String) (sep : Char) : List String :=
  (pySplitAux sep s.toList []).map (fun l => String.mk l)

/-- Python `sub in s` for strings. -/
def pyInStr (sub s : String) : Bool := containsSub sub.toList s.toList

/-- Python `==` between a `str` and an arbitrary value: only another equal
string compares equal. -/
def pyStrEq (k : String) : JVal → Bool
  | .jstr s => k == s
  | _ => false

/-- First binding of key `k` in a (unique-keyed) Python dict. -/
def jobjGet (fields : List (String × JVal)) (k : String) : Option JVal :=
  (fields.find? (fun p => p.1 == k)).map Prod.snd

/-- Rebind key `k` to `v` in a Python dict (every matching binding, which on
a unique-keyed dict is the one binding). -/
def jobjSet (fields : List (String × JVal)) (k : String) (v : JVal) :
    List (String × JVal) :=
  fields.map (fun p => if p.1 == k then (p.1, v) else p)

/-- Python `k in data` for a string `k`: key membership on a dict, element
membership on a list, substring on a string, `TypeError` otherwise. -/
def pyContains (v : JVal) (k : String) : Except PyErr Bool :=
  match v with
  | .jobj fields => .ok (fields.any (fun p => p.1 == k))
  | .jarr l => .ok (l.any (pyStrEq k))
  | .jstr s => .ok (pyInStr k s)
  | _ => .error .typeError

/-- Python truthiness of a JSON value. -/
def pyTruthy : JVal → Bool
  | .jnull => false
  | .jbool b => b
  | .jnum n => n != 0
  | .jstr s => !s.isEmpty
  | .jarr l => !l.isEmpty
  | .jobj f => !f.isEmpty

/-- Python `v.get(k)` (`None` default): `AttributeError` unless `v` is a dict. -/
def pyGet (v : JVal) (k : String) : Except PyErr (Option JVal) :=
  match v with
  | .jobj fields => .ok (jobjGet fields k)
  | _ => .error .attributeError

/-! ## email_utils.py -/

/-- The state of the JSON suffix file as `EmailUtils._load_data` can meet it:
absent, unreadable (`open` raises), not valid JSON, or holding a parsed
JSON value. -/
inductive FileState where
  | absent
  | unreadable
  | badJson
  | good (v : JVal)

/-- The dict `EmailUtils._load_data` falls back to. -/
def emptyData : JVal := .jobj [("suffixes", .jarr [])]

/-- `EmailUtils._load_data`: absent file, unreadable file, invalid JSON and a
`TypeError` raised by the membership test all give the fallback dict; a
parsed value passing Python's membership test is returned unchanged; one
failing it is replaced by the fallback dict. -/
def loadData : FileState → JVal
  | .absent => emptyData
  | .unreadable => emptyData
  | .badJson => emptyData
  | .good v =>
    match pyContains v "suffixes" with
    | .error _ => emptyData
    | .ok true => v
    | .ok false => emptyData

/-- `EmailUtils.get_all_suffixes`: `data.get("suffixes", [])`, which raises
`AttributeError` when `_load_data` returned a non-dict. -/
def getAllSuffixes (fs : FileState) : Except PyErr JVal :=
  match loadData fs with
  | .jobj fields => .ok ((jobjGet fields "suffixes").getD (.jarr []))
  | _ => .error .attributeError

/-- `EmailUtils._extract_suffix`. -/
def extractSuffix (email : String) : Option String :=
  if email.toList.isEmpty || !(email.toList.contains '@') then none
  else
    match pySplit email '@' with
    | [_, p1] => if p1.toList.isEmpty then none else some ("@" ++ p1)
    | _ => none

/-- `EmailUtils.save_suffix`.  `writeOk` models whether `_save_data`'s file
write succeeds (on failure `_save_data` returns `False` and the old file
survives in the model).  A raised exception (`Except.error`) models the
uncaught exceptions the Python can hit on degenerate loaded data. -/
def saveSuffix (writeOk : Bool) (email : String) (fs : FileState) :
    Except PyErr (Bool × FileState) :=
  match extractSuffix email with
  | none => .ok (false, fs)
  | some suffix =>
    match loadData fs with
    | .jobj fields =>
      match jobjGet fields "suffixes" with
      | none => .error .keyError
      | some sv =>
        match pyContains sv suffix with
        | .error e => .error e
        | .ok true => .ok (true, fs)
        | .ok false =>
          match sv with
          | .jarr l =>
            if writeOk then
              .ok (true, .good (.jobj (jobjSet fields "suffixes"
                (.jarr (l ++ [.jstr suffix])))))
            else
              .ok (false, fs)
          | _ => .error .attributeError
    | _ => .error .typeError

/-- A sequence of `save_suffix` calls, each a `(write-succeeds, email)` pair,
threading the file state. -/
def runSaveSuffixes : List (Bool × String) → FileState → Except PyErr FileState
  | [], fs => .ok fs
  | (w, e) :: rest, fs =>
    match saveSuffix w e fs with
    | .error err => .error err
    | .ok (_, fs') => runSaveSuffixes rest fs'

/-- The loaded suffix list exists and is duplicate-free. -/
def SuffixInv (fs : FileState) : Prop :=
  ∃ fields l, loadData fs = .jobj fields ∧
    jobjGet fields "suffixes" = some (.jarr l) ∧ l.Nodup

example : extractSuffix "user@gmail.com" = some "@gmail.com" := by decide
example : extractSuffix "a@@b" = none := by decide
example : extractSuffix "@" = none := by decide
example : extractSuffix "" = none := by decide
example : pyInStr "suffixes" "my suffixes here" = true := by decide
example : loadData (.good (.jarr [.jstr "suffixes"])) = .jarr [.jstr "suffixes"] := by rfl
example : getAllSuffixes .badJson = .ok (.jarr []) := by rfl
example : saveSuffix true "a@b.com" .absent =
    .ok (true, .good (.jobj [("suffixes", .jarr [.jstr "@b.com"])])) := by rfl

/-! ## The CDP client (bitbrowser_api.py, bitbrowser_create_window.py,
cloudflare_bypass_bitbrowser.py: class CDPClient, textually identical in the
three files) -/

/-- The state of a `CDPClient`: the WebSocket url and the two timeouts the
constructor configures on the socket, plus the correlation counter
`self._id`. -/
structure CDPClient where
  wsUrl : String
  wsConnectTimeout : ℚ
  wsRecvTimeout : ℚ
  counter : Nat

/-- `CDPClient.__init__(ws_url, timeout)`: the timeout is passed to
`websocket.create_connection` and to `self.ws.settimeout`; `self._id = 0`. -/
def CDPClient.init (ws_url : String) (timeout : ℚ) : CDPClient :=
  { wsUrl := ws_url, wsConnectTimeout := timeout,
    wsRecvTimeout := timeout, counter := 0 }

/-- One iteration of the receive loop: either `ws.recv()` plus `json.loads`
produced a value, or one of them raised (socket timeout and parse error
included). -/
inductive RecvPayload where
  | msg (v : JVal)
  | exn

/-- Python `==` between `resp.get("id")` (an optional JSON value) and the
integer `self._id`.  `None` never equals an int; `True`/`False` equal
`1`/`0`. -/
def pyEqInt : Option JVal → Int → Bool
  | none, _ => false
  | some (.jnum n), i => n == i
  | some (.jbool b), i => (if b then (1 : Int) else 0) == i
  | some _, _ => false

/-- The wait loop of `CDPClient.send`.  Each event is the value of
`time.time()` at the loop's deadline check followed by what the receive
produced; an exhausted list stands for the deadline passing with no further
arrivals. -/
def waitForResponse (reqId : Int) (deadline : ℚ) :
    List (ℚ × RecvPayload) → Option JVal
  | [] => none
  | (t, pl) :: rest =>
    if t < deadline then
      match pl with
      | .exn => none
      | .msg v =>
        match pyGet v "id" with
        | .error _ => none
        | .ok idv =>
          if pyEqInt idv reqId then some v
          else waitForResponse reqId deadline rest
    else none

/-- An event the wait loop is meant to skip: in time, receivable and
parseable, but with an `"id"` that does not compare equal to the request
id. -/
def Skips (reqId : Int) (deadline : ℚ) (e : ℚ × RecvPayload) : Prop :=
  e.1 < deadline ∧ ∃ v idv, e.2 = .msg v ∧ pyGet v "id" = .ok idv ∧
    pyEqInt idv reqId = false

/-- The message `CDPClient.send` writes to the socket. -/
structure CDPRequest where
  id : Nat
  method : String
  params : JVal
  sessionId : Option String

/-- Python `params or \x7b\x7d`. -/
def paramsOrEmpty : Option JVal → JVal
  | some v => if pyTruthy v then v else .jobj []
  | none => .jobj []

/-- Python `if session_id: msg["sessionId"] = session_id`. -/
def sessionIdIfTruthy : Option String → Option String
  | some s => if s.isEmpty then none else some s
  | none => none

/-- `CDPClient.send(method, params, session_id)`: increments `self._id`,
builds the request, and waits for a response until `time.time() + 10.0`.
`now` is the value of `time.time()` taken for the deadline; `events` is
what the socket delivers.  Returns the updated client, the request written
to the socket, and the result. -/
def CDPClient.send (c : CDPClient) (method : String) (params : Option JVal)
    (session_id : Option String) (now : ℚ) (events : List (ℚ × RecvPayload)) :
    CDPClient × CDPRequest × Option JVal :=
  let newId := c.counter + 1
  let c' := { c with counter := newId }
  let req : CDPRequest :=
    { id := newId, method := method, params := paramsOrEmpty params,
      sessionId := sessionIdIfTruthy session_id }
  (c', req, waitForResponse (Int.ofNat newId) (now + 10) events)

/-- The arguments of one `send` call together with its environment. -/
structure SendCall where
  method : String
  params : Option JVal
  sessionId : Option String
  now : ℚ
  events : List (ℚ × RecvPayload)

/-- A sequence of `send` calls on one client, collecting the requests
written to the socket. -/
def runSends (c : CDPClient) : List SendCall → CDPClient × List CDPRequest
  | [] => (c, [])
  | call :: rest =>
    let s := c.send call.method call.params call.sessionId call.now call.events
    let r := runSends s.1 rest
    (r.1, s.2.1 :: r.2)

/-! ## human_delay (bitbrowser_api.py, bitbrowser_create_window.py) -/

/-- `random.uniform(a, b)` as a function of the draw `t` in the unit
interval. -/
def uniformSample (a b t : ℚ) : ℚ := a + (b - a) * t

/-- `human_delay(base_seconds, jitter_percent)`: the jitter bound is
`base_seconds * jitter_percent`, the uniform draw lands in
`[-jitter, jitter]`, and the slept and returned delay is clamped below by
`0.1`. -/
def humanDelay (base_seconds jitter_percent t : ℚ) : ℚ :=
  let jitter := base_seconds * jitter_percent
  let delay := base_seconds + uniformSample (-jitter) jitter t
  max (1/10) delay

example :
    (CDPClient.init "ws://x" 3).send "Page.navigate" none none 0
      [(1, .msg (.jobj [("id", .jnum 1), ("result", .jobj [])]))] =
    ({ wsUrl := "ws://x", wsConnectTimeout := 3, wsRecvTimeout := 3,
       counter := 1 },
     { id := 1, method := "Page.navigate", params := .jobj [],
       sessionId := none },
     some (.jobj [("id", .jnum 1), ("result", .jobj [])])) := by
  simp only [CDPClient.send, CDPClient.init, waitForResponse, pyGet, jobjGet,
    pyEqInt, paramsOrEmpty, sessionIdIfTruthy]
  norm_num

example :
    waitForResponse 2 10 [(1, .msg (.jobj [("id", .jnum 1)])),
      (2, .msg (.jobj [("id", .jnum 2), ("result", .jnull)]))] =
    some (.jobj [("id", .jnum 2), ("result", .jnull)]) := by rfl

example : waitForResponse 1 10 [(11, .msg (.jobj [("id", .jnum 1)]))] = none := by rfl

example : humanDelay 2 (3/10) (1/2) = 2 := by norm_num [humanDelay, uniformSample]

/-! ## Cloudflare widget locators (augment_register.click_cloudflare_verify,
cloudflare_bypass_bitbrowser.find_cloudflare_element) -/

/-- The selector list of `find_cloudflare_element`
(cloudflare_bypass_bitbrowser.py). -/
def bypassSelectors : List String :=
  ["div[id*=\"ulp-\"]",
   "div[class*=\"ulp-\"]",
   "div[id*=\"captcha\"]",
   "div[class*=\"captcha\"]",
   "iframe[src*=\"challenges.cloudflare.com\"]",
   "div[id*=\"cf-\"]",
   "div[class*=\"cf-\"]"]

/-- The selector list of `click_cloudflare_verify` (augment_register.py). -/
def augmentSelectors : List String :=
  ["div[id*=\"ulp-\"]",
   "div[class*=\"ulp-\"]",
   "div[id*=\"captcha\"]",
   "div[class*=\"captcha\"]",
   "iframe[src*=\"challenges.cloudflare.com\"]",
   "div[id*=\"cf-\"]",
   "div[class*=\"cf-\"]",
   "input[type=\"checkbox\"][id*=\"cf\"]",
   "iframe[title*=\"cloudflare\"]",
   "iframe[src*=\"captcha\"]"]

/-- The eight numbers of a CDP box model's `content` quad,
`[x1, y1, x2, y2, x3, y3, x4, y4]`. -/
structure BoxContent where
  x1 : ℚ
  y1 : ℚ
  x2 : ℚ
  y2 : ℚ
  x3 : ℚ
  y3 : ℚ
  x4 : ℚ
  y4 : ℚ

/-- How the page answers each CDP command the locators issue.
`docRoot` is the root node id from `DOM.getDocument` (`none`: the send
failed or carried no `"result"`); `query sel` is the `nodeIds` list from
`DOM.querySelectorAll` (`none`: the send failed or carried no `"result"`);
`box n` is the `content` quad from `DOM.getBoxModel`; `jsClickValue` is
the truthiness of the value `Runtime.evaluate`'s fallback click returned
(`none`: that send failed or carried no value). -/
structure PageModel where
  docRoot : Option Nat
  query : String → Option (List Nat)
  box : Nat → Option BoxContent
  jsClickValue : Option Bool

/-- One CDP command a locator sends, with the arguments the claims are
about. -/
inductive CfCmd where
  | getDocument
  | queryAll (selector : String)
  | getBoxModel (nodeId : Nat)
  | jsClickEval
  | mouseEvent (kind : String) (x y : ℚ)

/-- Is a command an `Input.dispatchMouseEvent`? -/
def CfCmd.isMouse : CfCmd → Bool
  | .mouseEvent _ _ _ => true
  | _ => false

/-- The selectors a command trace queried, in order. -/
def queriedSelectors (cmds : List CfCmd) : List String :=
  cmds.filterMap (fun c => match c with | .queryAll s => some s | _ => none)

/-- A selector's query that the loop moves past: the send failed, carried no
result, or matched no element. -/
def NoSelMatch (r : Option (List Nat)) : Prop := r = none ∨ r = some []

/-- The selector loop both locators share: try each selector in order, stop
at the first whose `nodeIds` list is non-empty (Python truthiness of
`result["result"].get("nodeIds")`) and take its first node id.  Also
returns the commands sent. -/
def firstMatch (query : String → Option (List Nat)) :
    List String → Option Nat × List CfCmd
  | [] => (none, [])
  | sel :: rest =>
    match query sel with
    | some (n :: _) => (some n, [.queryAll sel])
    | _ =>
      let r := firstMatch query rest
      (r.1, .queryAll sel :: r.2)

/-- `find_cloudflare_element(cdp, session_id)`
(cloudflare_bypass_bitbrowser.py): get the document, then run the selector
loop; returns the found node id and the commands sent. -/
def findCloudflareElement (page : PageModel) : Option Nat × List CfCmd :=
  match page.docRoot with
  | none => (none, [.getDocument])
  | some _root =>
    let r := firstMatch page.query bypassSelectors
    (r.1, .getDocument :: r.2)

/-- `click_cloudflare_verify(cdp, session_id)` (augment_register.py): get
the document, run the selector loop over its ten selectors, re-check the
found node id's truthiness (`if not node_id: return False` — a node id of
0 is falsy, so it returns False before any `DOM.getBoxModel` call), then
either dispatch mouseMoved/mousePressed/mouseReleased at the box-model
centre of the found node, or fall back to a JavaScript click when the box
model is unavailable.  Returns the Python result and the commands sent. -/
def clickCloudflareVerify (page : PageModel) : Bool × List CfCmd :=
  match page.docRoot with
  | none => (false, [.getDocument])
  | some _root =>
    let r := firstMatch page.query augmentSelectors
    match r.1 with
    | none => (false, .getDocument :: r.2)
    | some nodeId =>
      if nodeId = 0 then (false, .getDocument :: r.2)
      else
      match page.box nodeId with
      | none =>
        match page.jsClickValue with
        | some true =>
          (true, .getDocument :: r.2 ++ [.getBoxModel nodeId, .jsClickEval])
        | _ =>
          (false, .getDocument :: r.2 ++ [.getBoxModel nodeId, .jsClickEval])
      | some content =>
        let x := (content.x1 + content.x3) / 2
        let y := (content.y1 + content.y3) / 2
        (true, .getDocument :: r.2 ++ [.getBoxModel nodeId,
          .mouseEvent "mouseMoved" x y,
          .mouseEvent "mousePressed" x y,
          .mouseEvent "mouseReleased" x y])

/-- A page state on which the very first selector matches with the falsy
node id 0 and a box model is available for that node. -/
def pageZero : PageModel :=
  { docRoot := some 1,
    query := fun s => if s = "div[id*=\"ulp-\"]" then some [0] else none,
    box := fun _ => some ⟨0, 0, 10, 0, 10, 10, 0, 10⟩,
    jsClickValue := some true }

/-! ## get_verification_code_from_email (augment_register.py,
bitbrowser_create_window.py, textually identical) -/

/-- Python `\x5cs` on the characters this code meets (ASCII whitespace). -/
def isPySpace (c : Char) : Bool :=
  c == ' ' || c == '\t' || c == '\n' || c == '\r' || c == '\x0b' || c == '\x0c'

/-- One of the five verification-code regexes: a literal, then optional
`\x5cs*`, then an optional literal opening tag, then the captured
`\x5cd\x7b6\x7d`, then an optional literal closing tag; matched with
`re.IGNORECASE`. -/
structure CodePattern where
  preLit : List Char
  wsAfter : Bool
  openTag : List Char
  closeTag : List Char

/-- The `patterns` list of `get_verification_code_from_email`, in source
order. -/
def codePatterns : List CodePattern :=
  [⟨"verification code is:".toList, true, [], []⟩,
   ⟨"verification code is:".toList, true, "<b>".toList, "</b>".toList⟩,
   ⟨"code is:".toList, true, [], []⟩,
   ⟨"code:".toList, true, [], []⟩,
   ⟨[], false, [], []⟩]

/-- Case-insensitive literal match at the head; returns the rest. -/
def matchLitCI : List Char → List Char → Option (List Char)
  | [], cs => some cs
  | _ :: _, [] => none
  | l :: ls, c :: cs =>
    if l.toLower == c.toLower then matchLitCI ls cs else none

/-- `\x5cd\x7b6\x7d`: exactly six decimal digits at the head; returns the
capture and the rest. -/
def matchSixDigits (cs : List Char) : Option (List Char × List Char) :=
  let ds := cs.take 6
  if ds.length == 6 && ds.all Char.isDigit then some (ds, cs.drop 6)
  else none

/-- Match one `CodePattern` anchored at the head of `cs`, returning the
captured digits.  `\x5cs*` is greedy and safe to take maximally because
whitespace is disjoint from both a digit and `<`. -/
def matchPatAt (p : CodePattern) (cs : List Char) : Option (List Char) :=
  match matchLitCI p.preLit cs with
  | none => none
  | some cs1 =>
    let cs2 := if p.wsAfter then cs1.dropWhile isPySpace else cs1
    match matchLitCI p.openTag cs2 with
    | none => none
    | some cs3 =>
      match matchSixDigits cs3 with
      | none => none
      | some (ds, cs4) =>
        match matchLitCI p.closeTag cs4 with
        | none => none
        | some _ => some ds

/-- `re.search`: try the pattern at each position, leftmost first. -/
def searchPat (p : CodePattern) : List Char → Option (List Char)
  | [] => matchPatAt p []
  | c :: rest =>
    match matchPatAt p (c :: rest) with
    | some ds => some ds
    | none => searchPat p rest

/-- The inner `for pattern in patterns` loop: first pattern that matches
wins, its first capture group is the code. -/
def tryPatterns : List CodePattern → List Char → Option (List Char)
  | [], _ => none
  | p :: ps, content =>
    match searchPat p content with
    | some ds => some ds
    | none => tryPatterns ps content

/-- Extract a verification code from one email body. -/
def extractCode (content : String) : Option String :=
  (tryPatterns codePatterns content.toList).map String.mk

/-- One email returned by the mailbox API, after the `.get(..., '')`
defaults. -/
structure EmailMsg where
  fromAddr : String
  subject : String
  content : String

/-- Python `'augmentcode.com' in from_addr.lower()`. -/
def isAugmentSender (e : EmailMsg) : Bool :=
  containsSub "augmentcode.com".toList (e.fromAddr.toList.map Char.toLower)

/-- The `for email_data in emails` loop: an email from a non-Augment sender
is skipped; an Augment email with no extractable code is also skipped (the
loop goes on to the next email). -/
def scanEmails : List EmailMsg → Option String
  | [] => none
  | e :: rest =>
    if isAugmentSender e then
      match extractCode e.content with
      | some code => some code
      | none => scanEmails rest
    else scanEmails rest

/-- What one polling attempt meets: an HTTP error, a network error, any
other exception (all three are caught, the loop sleeps and retries), or a
parsed response whose `emails` field holds the given list. -/
inductive AttemptOutcome where
  | httpError
  | urlError
  | otherError
  | response (emails : List EmailMsg)

/-- What one attempt of the polling loop yields: only a non-empty `emails`
list is scanned (`if not data.get('emails'): continue`). -/
def attemptResult : AttemptOutcome → Option String
  | .response emails => if emails.isEmpty then none else scanEmails emails
  | _ => none

/-- The `for attempt in range(max_retries)` loop, `budget` attempts left,
`i` the next attempt index. -/
def runAttempts (world : Nat → AttemptOutcome) : Nat → Nat → Option String
  | _, 0 => none
  | i, b + 1 =>
    match attemptResult (world i) with
    | some code => some code
    | none => runAttempts world (i + 1) b

/-- `get_verification_code_from_email(email)` with `max_retries = 10`:
`world i` is what the i-th HTTP poll of the mailbox API meets. -/
def getVerificationCodeFromEmail (world : Nat → AttemptOutcome) : Option String :=
  runAttempts world 0 10

example :
    extractCode "Your verification code is: 529891" = some "529891" := by decide
example :
    extractCode "Verification CODE IS:\n<B>123456</B>" = some "123456" := by decide
example : extractCode "no digits here" = none := by decide
example : extractCode "id 98765 and then 123456!" = some "123456" := by decide
example :
    scanEmails [⟨"x@other.com", "s", "code: 111111"⟩,
      ⟨"support@AugmentCode.com", "s", "Your verification code is: 222222"⟩] =
    some "222222" := by decide

/-! ## Attribute lookup on EmailUtils (augment_register.main, step 6) -/

/-- The attributes class `EmailUtils` (email_utils.py) defines: its nine
static methods.  There is no `save_email_to_file` among them. -/
def emailUtilsMethods : List String :=
  ["save_suffix", "get_all_suffixes", "get_suffix_count",
   "generate_random_email", "generate_random_emails",
   "_extract_suffix", "_load_data", "_save_data", "_generate_username"]

/-- Python attribute lookup `EmailUtils.<name>`. -/
def emailUtilsHasAttr (name : String) : Bool :=
  emailUtilsMethods.contains name

/-- The module-level functions of bitbrowser_create_window.py (where a
`save_email_to_file` does exist — but `augment_register.py` never imports
it). -/
def bitbrowserCreateWindowFunctions : List String :=
  ["human_delay", "create_browser_window", "open_browser_window",
   "close_browser_window", "get_email_from_browser", "save_email_to_file",
   "click_cloudflare_verify", "get_verification_code_from_email",
   "click_continue_button", "switch_to_augment_and_signin",
   "fill_verification_code", "main"]

/-- The `if email:` branch of `augment_register.main` (steps 6 onward):
with a non-None email it calls `EmailUtils.save_suffix(email)` and then
`EmailUtils.save_email_to_file(email)`, each preceded by an attribute
lookup on the `EmailUtils` class; no try/except encloses these lines, so a
raised `AttributeError` propagates and the later steps (7: sign in, 8:
verification code, 9: onboard redirect, 10: payment link, 11: session
cookie) are never reached.  Returns whether those later steps are
reached. -/
def mainReachesLaterSteps (email : Option String) : Except PyErr Bool :=
  match email with
  | none => .ok false
  | some _ =>
    if emailUtilsHasAttr "save_suffix" then
      if emailUtilsHasAttr "save_email_to_file" then
        .ok true
      else
        .error .attributeError
    else
      .error .attributeError

example : mainReachesLaterSteps (some "a@b.com") = .error .attributeError := by
  simp only [mainReachesLaterSteps]
  norm_num [emailUtilsHasAttr, emailUtilsMethods]
  intro h
  rcases h with h | h | h | h | h | h | h | h | h <;> simp at h
example : emailUtilsHasAttr "save_suffix" = true := by decide

/-! ## Theorems: the CDP client -/

/-- Any value the wait loop returns carries an `"id"` field that compares
equal (Python `==`) to the request id. -/
theorem waitForResponse_some_matches (reqId : Int) (d : ℚ) :
    ∀ (events : List (ℚ × RecvPayload)) (r : JVal),
      waitForResponse reqId d events = some r →
      ∃ idv, pyGet r "id" = .ok idv ∧ pyEqInt idv reqId = true := by
  intro events
  induction events with
  | nil => intro r h; simp [waitForResponse] at h
  | cons e rest ih =>
    intro r h
    obtain ⟨t, pl⟩ := e
    cases pl with
    | exn =>
      simp only [waitForResponse] at h
      split at h <;> simp at h
    | msg v =>
      simp only [waitForResponse] at h
      split at h
      · split at h
        · simp at h
        · rename_i idv hg
          split at h
          · rename_i hm
            cases h
            exact ⟨idv, hg, hm⟩
          · exact ih r h
      · simp at h

/-- Skippable events in front of the list do not change the wait loop's
result. -/
theorem waitForResponse_skips (reqId : Int) (d : ℚ) :
    ∀ (pre tail : List (ℚ × RecvPayload)), (∀ e ∈ pre, Skips reqId d e) →
      waitForResponse reqId d (pre ++ tail) = waitForResponse reqId d tail := by
  intro pre
  induction pre with
  | nil => intro tail _; rfl
  | cons e rest ih =>
    intro tail hall
    obtain ⟨ht, v, idv, hmsg, hget, hne⟩ := hall e (by simp)
    obtain ⟨t, pl⟩ := e
    simp only at hmsg
    subst hmsg
    simp only [List.cons_append, waitForResponse]
    rw [if_pos ht, hget]
    simp only [hne, if_false]
    exact ih tail (fun x hx => hall x (by simp [hx]))

/-- Claim C1: a non-None value returned by `CDPClient.send` is the parsed
message whose `"id"` field equals the correlation id this request was
assigned; a received message whose `"id"` differs is discarded by the wait
loop and never returned. -/
theorem claim_C1_send_returns_only_matching :
    (∀ (c : CDPClient) (method : String) (params : Option JVal)
       (sid : Option String) (now : ℚ) (events : List (ℚ × RecvPayload))
       (c' : CDPClient) (req : CDPRequest) (resp : JVal),
       c.send method params sid now events = (c', req, some resp) →
       ∃ idv, pyGet resp "id" = .ok idv ∧
         pyEqInt idv (Int.ofNat req.id) = true)
  ∧ (∀ (reqId : Int) (deadline t : ℚ) (v : JVal) (idv : Option JVal)
       (rest : List (ℚ × RecvPayload)),
       t < deadline → pyGet v "id" = .ok idv → pyEqInt idv reqId = false →
       waitForResponse reqId deadline ((t, .msg v) :: rest) =
         waitForResponse reqId deadline rest) := by
  constructor
  · intro c method params sid now events c' req resp h
    simp only [CDPClient.send, Prod.mk.injEq] at h
    obtain ⟨-, hreq, hresp⟩ := h
    have hid : req.id = c.counter + 1 := by rw [← hreq]
    rw [hid]
    exact waitForResponse_some_matches _ _ events resp hresp
  · intro reqId deadline t v idv rest ht hget hne
    have := waitForResponse_skips reqId deadline [(t, .msg v)] rest
      (by intro e he; simp at he; subst he; exact ⟨ht, v, idv, rfl, hget, hne⟩)
    simpa using this

/-- Each `send` call increments the correlation counter by exactly 1 and
stamps the new counter value into the outgoing message. -/
theorem send_increments (c : CDPClient) (method : String)
    (params : Option JVal) (sid : Option String) (now : ℚ)
    (events : List (ℚ × RecvPayload)) :
    (c.send method params sid now events).1.counter = c.counter + 1 ∧
    (c.send method params sid now events).2.1.id = c.counter + 1 := by
  constructor <;> rfl

/-- The final counter after a run of sends. -/
theorem runSends_counter :
    ∀ (calls : List SendCall) (c : CDPClient),
      (runSends c calls).1.counter = c.counter + calls.length := by
  intro calls
  induction calls with
  | nil => intro c; simp [runSends]
  | cons call rest ih =>
    intro c
    simp only [runSends]
    rw [ih]
    simp only [CDPClient.send, List.length_cons]
    omega

/-- A run of sends writes one request per call. -/
theorem runSends_length :
    ∀ (calls : List SendCall) (c : CDPClient),
      (runSends c calls).2.length = calls.length := by
  intro calls
  induction calls with
  | nil => intro c; simp [runSends]
  | cons call rest ih =>
    intro c
    simp only [runSends, List.length_cons]
    rw [ih]

/-- The i-th request of a run carries id `counter + i + 1`. -/
theorem runSends_id :
    ∀ (calls : List SendCall) (c : CDPClient) (i : Nat) (req : CDPRequest),
      ((runSends c calls).2)[i]? = some req → req.id = c.counter + i + 1 := by
  intro calls
  induction calls with
  | nil => intro c i req h; simp [runSends] at h
  | cons call rest ih =>
    intro c i req h
    simp only [runSends] at h
    cases i with
    | zero =>
      simp only [List.getElem?_cons_zero, Option.some.injEq] at h
      subst h
      rfl
    | succ j =>
      simp only [List.getElem?_cons_succ] at h
      have := ih _ j req h
      simp only [CDPClient.send] at this
      omega

/-- Claim C2: the correlation counter starts at 0 at construction, every
send increments it by exactly 1, and the n-th call (1-based) on an instance
sends a message whose `"id"` field is n. -/
theorem claim_C2_sequential_ids :
    (∀ u t, (CDPClient.init u t).counter = 0)
  ∧ (∀ (c : CDPClient) (method : String) (params : Option JVal)
       (sid : Option String) (now : ℚ) (events : List (ℚ × RecvPayload)),
       (c.send method params sid now events).1.counter = c.counter + 1)
  ∧ (∀ u t (calls : List SendCall),
       ((runSends (CDPClient.init u t) calls).2).length = calls.length)
  ∧ (∀ u t (calls : List SendCall) (i : Nat) (req : CDPRequest),
       ((runSends (CDPClient.init u t) calls).2)[i]? = some req →
       req.id = i + 1) := by
  refine ⟨fun u t => rfl, fun c _ _ _ _ _ => rfl, fun u t calls =>
    runSends_length calls _, fun u t calls i req h => ?_⟩
  have := runSends_id calls (CDPClient.init u t) i req h
  simpa [CDPClient.init] using this

/-- Claim C3: `send` runs the deadline-bounded wait loop on its fresh
correlation id; a matching response arriving in time is returned; an empty
or out-of-time event stream yields `none`; an exception while receiving or
parsing, and an `AttributeError` from `.get` on a non-dict message, yield
`none` rather than propagating; a stream of only skippable messages yields
`none` when the deadline passes. -/
theorem claim_C3_send_option_result :
    (∀ (c : CDPClient) (method : String) (params : Option JVal)
       (sid : Option String) (now : ℚ) (events : List (ℚ × RecvPayload)),
       (c.send method params sid now events).2.2 =
         waitForResponse (Int.ofNat (c.counter + 1)) (now + 10) events)
  ∧ (∀ (reqId : Int) (d : ℚ) (pre : List (ℚ × RecvPayload)) (t : ℚ) (v : JVal)
       (idv : Option JVal) (rest : List (ℚ × RecvPayload)),
       (∀ e ∈ pre, Skips reqId d e) → t < d → pyGet v "id" = .ok idv →
       pyEqInt idv reqId = true →
       waitForResponse reqId d (pre ++ (t, .msg v) :: rest) = some v)
  ∧ (∀ (reqId : Int) (d : ℚ), waitForResponse reqId d [] = none)
  ∧ (∀ (reqId : Int) (d t : ℚ) (pl : RecvPayload)
       (rest : List (ℚ × RecvPayload)), d ≤ t →
       waitForResponse reqId d ((t, pl) :: rest) = none)
  ∧ (∀ (reqId : Int) (d : ℚ) (pre : List (ℚ × RecvPayload)) (t : ℚ)
       (rest : List (ℚ × RecvPayload)),
       (∀ e ∈ pre, Skips reqId d e) → t < d →
       waitForResponse reqId d (pre ++ (t, .exn) :: rest) = none)
  ∧ (∀ (reqId : Int) (d : ℚ) (pre : List (ℚ × RecvPayload)) (t : ℚ) (v : JVal)
       (err : PyErr) (rest : List (ℚ × RecvPayload)),
       (∀ e ∈ pre, Skips reqId d e) → t < d → pyGet v "id" = .error err →
       waitForResponse reqId d (pre ++ (t, .msg v) :: rest) = none)
  ∧ (∀ (reqId : Int) (d : ℚ) (pre : List (ℚ × RecvPayload)),
       (∀ e ∈ pre, Skips reqId d e) → waitForResponse reqId d pre = none) := by
  refine ⟨fun c _ _ _ _ _ => rfl, ?_, fun reqId d => rfl, ?_, ?_, ?_, ?_⟩
  · intro reqId d pre t v idv rest hpre ht hget heq
    rw [waitForResponse_skips reqId d pre _ hpre]
    simp only [waitForResponse]
    rw [if_pos ht, hget]
    simp [heq]
  · intro reqId d t pl rest hd
    simp only [waitForResponse]
    rw [if_neg (not_lt.mpr hd)]
  · intro reqId d pre t rest hpre ht
    rw [waitForResponse_skips reqId d pre _ hpre]
    simp only [waitForResponse]
    rw [if_pos ht]
  · intro reqId d pre t v err rest hpre ht hget
    rw [waitForResponse_skips reqId d pre _ hpre]
    simp only [waitForResponse]
    rw [if_pos ht, hget]
  · intro reqId d pre hpre
    have := waitForResponse_skips reqId d pre [] hpre
    simpa using this

/-- Claim C9: the constructor's timeout only configures the WebSocket
connect and recv timeouts; the wait deadline inside `send` is the
hard-coded `time.time() + 10.0`, so two clients built with different
timeouts produce identical requests and identical send results. -/
theorem claim_C9_deadline_independent_of_timeout :
    (∀ u t, (CDPClient.init u t).wsConnectTimeout = t ∧
       (CDPClient.init u t).wsRecvTimeout = t)
  ∧ (∀ (c : CDPClient) (method : String) (params : Option JVal)
       (sid : Option String) (now : ℚ) (events : List (ℚ × RecvPayload)),
       (c.send method params sid now events).2.2 =
         waitForResponse (Int.ofNat (c.counter + 1)) (now + 10) events)
  ∧ (∀ u (t₁ t₂ : ℚ) (method : String) (params : Option JVal)
       (sid : Option String) (now : ℚ) (events : List (ℚ × RecvPayload)),
       ((CDPClient.init u t₁).send method params sid now events).2 =
         ((CDPClient.init u t₂).send method params sid now events).2) := by
  exact ⟨fun u t => ⟨rfl, rfl⟩, fun c _ _ _ _ _ => rfl,
    fun u t₁ t₂ _ _ _ _ _ => rfl⟩

/-! ## Theorems: email_utils -/

/-- `pyStrEq` recognises exactly the equal string. -/
theorem pyStrEq_iff (k : String) (x : JVal) :
    pyStrEq k x = true ↔ x = .jstr k := by
  cases x
  case jstr s =>
    simp only [pyStrEq, beq_iff_eq, JVal.jstr.injEq]
    exact eq_comm
  all_goals simp [pyStrEq]

/-- `jobjSet` keeps every binding's key. -/
theorem jobjSet_keys (fields : List (String × JVal)) (k k' : String) (v : JVal) :
    (jobjSet fields k v).any (fun p => p.1 == k') =
      fields.any (fun p => p.1 == k') := by
  induction fields with
  | nil => rfl
  | cons p rest ih =>
    simp only [jobjSet, List.map_cons, List.any_cons] at *
    rw [ih]
    by_cases hp : p.1 == k
    · simp [hp]
    · simp [hp]

/-- After `jobjSet fields k v`, looking up `k` finds `v`, provided `k` was
bound. -/
theorem jobjGet_jobjSet (fields : List (String × JVal)) (k : String)
    (v x : JVal) (h : jobjGet fields k = some x) :
    jobjGet (jobjSet fields k v) k = some v := by
  induction fields with
  | nil => simp [jobjGet] at h
  | cons p rest ih =>
    by_cases hp : (p.1 == k) = true
    · simp only [jobjGet, jobjSet, List.map_cons, if_pos hp]
      rw [List.find?_cons_of_pos _ (by simpa using hp)]
      rfl
    · simp only [jobjGet, jobjSet, List.map_cons, if_neg hp]
      simp only [jobjGet] at h
      rw [List.find?_cons_of_neg _ (by simpa using hp)] at h
      rw [List.find?_cons_of_neg _ (by simpa using hp)]
      exact ih h

/-- A bound key makes the dict's key-membership test true. -/
theorem jobjGet_some_any (fields : List (String × JVal)) (k : String)
    (x : JVal) (h : jobjGet fields k = some x) :
    fields.any (fun p => p.1 == k) = true := by
  induction fields with
  | nil => simp [jobjGet] at h
  | cons p rest ih =>
    simp only [jobjGet, List.find?] at h
    by_cases hp : p.1 == k
    · simp [hp]
    · simp only [hp, Bool.false_eq_true, if_false] at h
      simp only [List.any_cons, hp, Bool.false_or]
      exact ih h

/-- One `save_suffix` call from an invariant state returns without raising
and preserves the invariant. -/
theorem saveSuffix_inv (w : Bool) (email : String) (fs : FileState)
    (h : SuffixInv fs) :
    ∃ b fs', saveSuffix w email fs = .ok (b, fs') ∧ SuffixInv fs' := by
  obtain ⟨fields, l, hload, hget, hnd⟩ := h
  cases hx : extractSuffix email with
  | none =>
    refine ⟨false, fs, ?_, ⟨fields, l, hload, hget, hnd⟩⟩
    simp [saveSuffix, hx]
  | some suffix =>
    cases hmem : l.any (pyStrEq suffix) with
    | true =>
      refine ⟨true, fs, ?_, ⟨fields, l, hload, hget, hnd⟩⟩
      simp [saveSuffix, hx, hload, hget, pyContains, hmem]
    | false =>
      cases w with
      | false =>
        refine ⟨false, fs, ?_, ⟨fields, l, hload, hget, hnd⟩⟩
        simp [saveSuffix, hx, hload, hget, pyContains, hmem]
      | true =>
        have hnotin : JVal.jstr suffix ∉ l := by
          intro hin
          have : l.any (pyStrEq suffix) = true :=
            List.any_eq_true.mpr ⟨_, hin, (pyStrEq_iff suffix _).mpr rfl⟩
          rw [hmem] at this
          exact Bool.false_ne_true this
        refine ⟨true, .good (.jobj (jobjSet fields "suffixes"
          (.jarr (l ++ [.jstr suffix])))), ?_, ?_⟩
        · simp [saveSuffix, hx, hload, hget, pyContains, hmem]
        · refine ⟨jobjSet fields "suffixes" (.jarr (l ++ [.jstr suffix])),
            l ++ [.jstr suffix], ?_, ?_, ?_⟩
          · have hany : (jobjSet fields "suffixes"
                (JVal.jarr (l ++ [.jstr suffix]))).any
                  (fun p => p.1 == "suffixes") = true := by
              rw [jobjSet_keys]
              exact jobjGet_some_any fields "suffixes" _ hget
            simp [loadData, pyContains, hany]
          · exact jobjGet_jobjSet fields "suffixes" _ _ hget
          · rw [List.nodup_append]
            refine ⟨hnd, List.nodup_singleton _, ?_⟩
            intro a ha hb
            simp only [List.mem_singleton] at hb
            subst hb
            exact hnotin ha

/-- Any sequence of `save_suffix` calls from an invariant state raises
nothing and preserves the invariant. -/
theorem runSaveSuffixes_inv :
    ∀ (calls : List (Bool × String)) (fs : FileState), SuffixInv fs →
      ∃ fs', runSaveSuffixes calls fs = .ok fs' ∧ SuffixInv fs' := by
  intro calls
  induction calls with
  | nil => intro fs h; exact ⟨fs, rfl, h⟩
  | cons call rest ih =>
    intro fs h
    obtain ⟨w, e⟩ := call
    obtain ⟨b, fs1, hstep, hinv1⟩ := saveSuffix_inv w e fs h
    obtain ⟨fs', hrun, hinv'⟩ := ih fs1 hinv1
    exact ⟨fs', by simp [runSaveSuffixes, hstep, hrun], hinv'⟩

/-- Claim C5: from any file state whose loaded suffixes list is
duplicate-free, every sequence of `save_suffix` calls keeps it
duplicate-free; a call whose suffix is already present returns True and
leaves the file unchanged; a call with a new valid suffix appends exactly
that suffix at the end. -/
theorem claim_C5_save_suffix_dedup :
    (∀ (calls : List (Bool × String)) (fs : FileState), SuffixInv fs →
       ∃ fs', runSaveSuffixes calls fs = .ok fs' ∧ SuffixInv fs')
  ∧ (∀ (w : Bool) (email suffix : String) (fs : FileState)
       (fields : List (String × JVal)) (l : List JVal),
       loadData fs = .jobj fields →
       jobjGet fields "suffixes" = some (.jarr l) →
       extractSuffix email = some suffix → JVal.jstr suffix ∈ l →
       saveSuffix w email fs = .ok (true, fs))
  ∧ (∀ (email suffix : String) (fs : FileState)
       (fields : List (String × JVal)) (l : List JVal),
       loadData fs = .jobj fields →
       jobjGet fields "suffixes" = some (.jarr l) →
       extractSuffix email = some suffix → JVal.jstr suffix ∉ l →
       saveSuffix true email fs = .ok (true, .good (.jobj (jobjSet fields
         "suffixes" (.jarr (l ++ [.jstr suffix])))))) := by
  refine ⟨runSaveSuffixes_inv, ?_, ?_⟩
  · intro w email suffix fs fields l hload hget hx hin
    have hmem : l.any (pyStrEq suffix) = true :=
      List.any_eq_true.mpr ⟨_, hin, (pyStrEq_iff suffix _).mpr rfl⟩
    simp [saveSuffix, hx, hload, hget, pyContains, hmem]
  · intro email suffix fs fields l hload hget hx hnotin
    have hmem : l.any (pyStrEq suffix) = false := by
      cases hmem : l.any (pyStrEq suffix) with
      | false => rfl
      | true =>
        obtain ⟨x, hxl, hps⟩ := List.any_eq_true.mp hmem
        exact absurd (((pyStrEq_iff suffix x).mp hps) ▸ hxl) hnotin
    simp [saveSuffix, hx, hload, hget, pyContains, hmem]

/-- Claim C10 counterexample: `_load_data` on a file whose JSON is the
array `["suffixes"]` (valid JSON, no `suffixes` key anywhere) passes
Python's list-membership test and returns the list unchanged — not a dict
containing the key `"suffixes"` — and `get_all_suffixes` then raises
`AttributeError` on `.get`. -/
theorem claim_C10_counterexample :
    loadData (.good (.jarr [.jstr "suffixes"])) = .jarr [.jstr "suffixes"]
  ∧ (∀ fields, loadData (.good (.jarr [.jstr "suffixes"])) ≠ .jobj fields)
  ∧ getAllSuffixes (.good (.jarr [.jstr "suffixes"])) =
      .error .attributeError := by
  refine ⟨rfl, ?_, rfl⟩
  intro fields h
  have : JVal.jarr [.jstr "suffixes"] = .jobj fields := by
    rw [← h]; rfl
  exact absurd this (by simp)

/-- Claim C10 (amended): `_load_data` is total and never raises; an absent,
unreadable or invalid-JSON file yields exactly the dict with an empty
`suffixes` list; a parsed dict always yields a dict with a `suffixes`
binding; a parsed value passing Python's membership test is returned
unchanged, any other parsed value yields the empty dict; and
`get_all_suffixes` returns the empty list for a missing or corrupt file. -/
theorem claim_C10_load_data_total :
    (loadData .absent = emptyData ∧ loadData .unreadable = emptyData ∧
       loadData .badJson = emptyData)
  ∧ (∀ fields, ∃ fields', loadData (.good (.jobj fields)) = .jobj fields' ∧
       jobjGet fields' "suffixes" ≠ none)
  ∧ (∀ v, pyContains v "suffixes" = .ok true → loadData (.good v) = v)
  ∧ (∀ v, pyContains v "suffixes" = .ok false → loadData (.good v) = emptyData)
  ∧ (∀ v e, pyContains v "suffixes" = .error e → loadData (.good v) = emptyData)
  ∧ (getAllSuffixes .absent = .ok (.jarr []) ∧
       getAllSuffixes .unreadable = .ok (.jarr []) ∧
       getAllSuffixes .badJson = .ok (.jarr [])) := by
  refine ⟨⟨rfl, rfl, rfl⟩, ?_, ?_, ?_, ?_, ⟨rfl, rfl, rfl⟩⟩
  · intro fields
    cases hany : fields.any (fun p => p.1 == "suffixes") with
    | true =>
      refine ⟨fields, by simp [loadData, pyContains, hany], ?_⟩
      obtain ⟨p, hp, hpk⟩ := List.any_eq_true.mp hany
      have : (fields.find? (fun p => p.1 == "suffixes")).isSome :=
        List.find?_isSome.mpr ⟨p, hp, hpk⟩
      simp only [jobjGet, ne_eq, Option.map_eq_none']
      intro hnone
      rw [hnone] at this
      simp at this
    | false =>
      refine ⟨[("suffixes", .jarr [])], by simp [loadData, pyContains, hany, emptyData], ?_⟩
      simp [jobjGet, List.find?]
  · intro v h
    simp [loadData, h]
  · intro v h
    simp [loadData, h]
  · intro v e h
    simp [loadData, h]

/-! ## Theorems: human_delay -/

/-- Claim C8: with `base_seconds = b ≥ 0` and `0 ≤ jitter_percent = p ≤ 1`,
the drawn jitter lies in `[-b*p, b*p]`, the returned delay is
`max(0.1, b + u)`, and it satisfies `0.1 ≤ d ≤ max(0.1, b*(1+p))` — never
below 0.1 seconds. -/
theorem claim_C8_human_delay (b p t : ℚ) (hb : 0 ≤ b) (hp0 : 0 ≤ p)
    (_hp1 : p ≤ 1) (ht0 : 0 ≤ t) (ht1 : t ≤ 1) :
    (-(b * p) ≤ uniformSample (-(b * p)) (b * p) t ∧
       uniformSample (-(b * p)) (b * p) t ≤ b * p)
  ∧ humanDelay b p t = max (1/10) (b + uniformSample (-(b * p)) (b * p) t)
  ∧ (1/10 : ℚ) ≤ humanDelay b p t
  ∧ humanDelay b p t ≤ max (1/10) (b * (1 + p)) := by
  have hbp : 0 ≤ b * p := mul_nonneg hb hp0
  have hu0 : -(b * p) ≤ uniformSample (-(b * p)) (b * p) t := by
    simp only [uniformSample]
    nlinarith
  have hu1 : uniformSample (-(b * p)) (b * p) t ≤ b * p := by
    simp only [uniformSample]
    nlinarith
  refine ⟨⟨hu0, hu1⟩, rfl, le_max_left _ _, ?_⟩
  have : b + uniformSample (-(b * p)) (b * p) t ≤ b * (1 + p) := by nlinarith
  exact max_le_max le_rfl this

/-- Witness for claim C8 at `base_seconds = 2`, `jitter_percent = 1`,
draw `t = 1`. -/
theorem claim_C8_witness :
    (1/10 : ℚ) ≤ humanDelay 2 1 1 ∧
      humanDelay 2 1 1 ≤ max (1/10) (2 * (1 + 1)) := by
  have h := claim_C8_human_delay 2 1 1 (by decide) (by decide)
    (by decide) (by decide) (by decide)
  exact ⟨h.2.2.1, h.2.2.2⟩

/-! ## Theorems: the Cloudflare widget locators -/

/-- The selector loop queries a prefix of its selector list, in order. -/
theorem firstMatch_queries (query : String → Option (List Nat)) :
    ∀ sels : List String, ∃ k,
      queriedSelectors (firstMatch query sels).2 = sels.take k := by
  intro sels
  induction sels with
  | nil => exact ⟨0, rfl⟩
  | cons sel rest ih =>
    cases hq : query sel with
    | none =>
      obtain ⟨k, hk⟩ := ih
      refine ⟨k + 1, ?_⟩
      simp [firstMatch, hq, queriedSelectors] at *
      exact hk
    | some ids =>
      cases ids with
      | nil =>
        obtain ⟨k, hk⟩ := ih
        refine ⟨k + 1, ?_⟩
        simp [firstMatch, hq, queriedSelectors] at *
        exact hk
      | cons n more => exact ⟨1, by simp [firstMatch, hq, queriedSelectors]⟩

/-- The selector loop issues no mouse event. -/
theorem firstMatch_mouse_free (query : String → Option (List Nat)) :
    ∀ sels : List String,
      ((firstMatch query sels).2).all (fun c => !c.isMouse) = true := by
  intro sels
  induction sels with
  | nil => rfl
  | cons sel rest ih =>
    cases hq : query sel with
    | none => simpa [firstMatch, hq, CfCmd.isMouse] using ih
    | some ids =>
      cases ids with
      | nil => simpa [firstMatch, hq, CfCmd.isMouse] using ih
      | cons n more => simp [firstMatch, hq, CfCmd.isMouse]

/-- If no selector matches, the loop finds nothing. -/
theorem firstMatch_none (query : String → Option (List Nat)) :
    ∀ sels : List String, (∀ s ∈ sels, NoSelMatch (query s)) →
      (firstMatch query sels).1 = none := by
  intro sels
  induction sels with
  | nil => intro _; rfl
  | cons sel rest ih =>
    intro h
    rcases h sel (by simp) with hq | hq <;>
      simp [firstMatch, hq, ih fun s hs => h s (by simp [hs])]

/-- The loop returns the first node id of the first selector that matches at
least one element. -/
theorem firstMatch_first (query : String → Option (List Nat)) :
    ∀ (pre : List String) (sel : String) (rest : List String) (n : Nat)
      (ids : List Nat), (∀ s ∈ pre, NoSelMatch (query s)) →
      query sel = some (n :: ids) →
      (firstMatch query (pre ++ sel :: rest)).1 = some n := by
  intro pre
  induction pre with
  | nil => intro sel rest n ids _ hsel; simp [firstMatch, hsel]
  | cons s0 more ih =>
    intro sel rest n ids hpre hsel
    rcases hpre s0 (by simp) with hq | hq <;>
      simp [firstMatch, hq,
        ih sel rest n ids (fun s hs => hpre s (by simp [hs])) hsel]

/-- Claim C7 (amended): both locators try their selectors strictly in the
listed order (the queried selectors form a prefix of the list); when no
selector matches any element they report failure — `None`, respectively
`False` — and dispatch no mouse event (`find_cloudflare_element` never
dispatches one at all); `find_cloudflare_element` returns the first node
id of the first matching selector (0 included); and
`click_cloudflare_verify` clicks that node's box-model centre only when
the node id is truthy — `if not node_id:` makes a first node id of 0
report `False` with no box-model call and no mouse event. -/
theorem claim_C7_selector_order_and_failure :
    (∀ page : PageModel, ∃ k,
       queriedSelectors (findCloudflareElement page).2 = bypassSelectors.take k)
  ∧ (∀ page : PageModel, ∃ k,
       queriedSelectors (clickCloudflareVerify page).2 = augmentSelectors.take k)
  ∧ (∀ page : PageModel,
       ((findCloudflareElement page).2).all (fun c => !c.isMouse) = true)
  ∧ (∀ page : PageModel, (∀ s ∈ bypassSelectors, NoSelMatch (page.query s)) →
       (findCloudflareElement page).1 = none)
  ∧ (∀ page : PageModel, (∀ s ∈ augmentSelectors, NoSelMatch (page.query s)) →
       (clickCloudflareVerify page).1 = false ∧
       ((clickCloudflareVerify page).2).all (fun c => !c.isMouse) = true)
  ∧ (∀ (page : PageModel) (root : Nat) (pre : List String) (sel : String)
       (rest : List String) (n : Nat) (ids : List Nat),
       page.docRoot = some root → bypassSelectors = pre ++ sel :: rest →
       (∀ s ∈ pre, NoSelMatch (page.query s)) →
       page.query sel = some (n :: ids) →
       (findCloudflareElement page).1 = some n)
  ∧ (∀ (page : PageModel) (root : Nat) (pre : List String) (sel : String)
       (rest : List String) (n : Nat) (ids : List Nat) (content : BoxContent),
       page.docRoot = some root → augmentSelectors = pre ++ sel :: rest →
       (∀ s ∈ pre, NoSelMatch (page.query s)) →
       page.query sel = some (n :: ids) → n ≠ 0 → page.box n = some content →
       (clickCloudflareVerify page).1 = true ∧
       ∃ preCmds, (clickCloudflareVerify page).2 = preCmds ++
         [.mouseEvent "mouseMoved" ((content.x1 + content.x3) / 2)
            ((content.y1 + content.y3) / 2),
          .mouseEvent "mousePressed" ((content.x1 + content.x3) / 2)
            ((content.y1 + content.y3) / 2),
          .mouseEvent "mouseReleased" ((content.x1 + content.x3) / 2)
            ((content.y1 + content.y3) / 2)])
  ∧ (∀ (page : PageModel) (root : Nat) (pre : List String) (sel : String)
       (rest : List String) (ids : List Nat),
       page.docRoot = some root → augmentSelectors = pre ++ sel :: rest →
       (∀ s ∈ pre, NoSelMatch (page.query s)) →
       page.query sel = some (0 :: ids) →
       (clickCloudflareVerify page).1 = false ∧
       ((clickCloudflareVerify page).2).all (fun c => !c.isMouse) = true) := by
  refine ⟨?_, ?_, ?_, ?_, ?_, ?_, ?_, ?_⟩
  · intro page
    cases hdoc : page.docRoot with
    | none => exact ⟨0, by simp [findCloudflareElement, hdoc, queriedSelectors]⟩
    | some root =>
      obtain ⟨k, hk⟩ := firstMatch_queries page.query bypassSelectors
      refine ⟨k, ?_⟩
      simp only [findCloudflareElement, hdoc, queriedSelectors,
        List.filterMap_cons] at *
      exact hk
  · intro page
    cases hdoc : page.docRoot with
    | none => exact ⟨0, by simp [clickCloudflareVerify, hdoc, queriedSelectors]⟩
    | some root =>
      obtain ⟨k, hk⟩ := firstMatch_queries page.query augmentSelectors
      refine ⟨k, ?_⟩
      simp only [queriedSelectors] at hk
      simp only [clickCloudflareVerify, hdoc, queriedSelectors]
      cases hfm : (firstMatch page.query augmentSelectors).1 with
      | none => simpa [hfm] using hk
      | some nodeId =>
        by_cases hz : nodeId = 0
        · simpa [hfm, hz] using hk
        · cases hbox : page.box nodeId with
          | none =>
            cases hjs : page.jsClickValue with
            | none => simpa [hfm, hz, hbox, hjs] using hk
            | some b => cases b <;> simpa [hfm, hz, hbox, hjs] using hk
          | some content => simpa [hfm, hz, hbox] using hk
  · intro page
    cases hdoc : page.docRoot with
    | none => simp [findCloudflareElement, hdoc, CfCmd.isMouse]
    | some root =>
      simp only [findCloudflareElement, hdoc, List.all_cons, CfCmd.isMouse,
        Bool.not_false, Bool.true_and]
      exact firstMatch_mouse_free page.query bypassSelectors
  · intro page h
    cases hdoc : page.docRoot with
    | none => simp [findCloudflareElement, hdoc]
    | some root =>
      simp [findCloudflareElement, hdoc, firstMatch_none page.query _ h]
  · intro page h
    cases hdoc : page.docRoot with
    | none => simp [clickCloudflareVerify, hdoc, CfCmd.isMouse]
    | some root =>
      have hfm := firstMatch_none page.query _ h
      have hmf := firstMatch_mouse_free page.query augmentSelectors
      simp only [clickCloudflareVerify, hdoc, hfm]
      constructor
      · trivial
      · simpa [CfCmd.isMouse] using hmf
  · intro page root pre sel rest n ids hdoc hdecomp hpre hsel
    have := firstMatch_first page.query pre sel rest n ids hpre hsel
    simp [findCloudflareElement, hdoc, hdecomp, this]
  · intro page root pre sel rest n ids content hdoc hdecomp hpre hsel hnz hbox
    have hfm := firstMatch_first page.query pre sel rest n ids hpre hsel
    rw [← hdecomp] at hfm
    refine ⟨?_, CfCmd.getDocument ::
      ((firstMatch page.query augmentSelectors).2 ++ [CfCmd.getBoxModel n]),
      ?_⟩ <;>
      simp [clickCloudflareVerify, hdoc, hfm, hnz, hbox]
  · intro page root pre sel rest ids hdoc hdecomp hpre hsel
    have hfm := firstMatch_first page.query pre sel rest 0 ids hpre hsel
    rw [← hdecomp] at hfm
    have hmf := firstMatch_mouse_free page.query augmentSelectors
    simp only [clickCloudflareVerify, hdoc, hfm]
    constructor
    · simp
    · simpa [CfCmd.isMouse] using hmf

/-- Claim C7 counterexample: on `pageZero` the first selector of
`click_cloudflare_verify` matches with first node id 0 and a box model is
available for that node, yet the function returns `False` and dispatches
no mouse event — it does not click the first node id of the first
matching selector, because `if not node_id:` treats 0 as falsy. -/
theorem claim_C7_counterexample :
    pageZero.docRoot = some 1
  ∧ pageZero.query "div[id*=\"ulp-\"]" = some [0]
  ∧ pageZero.box 0 = some ⟨0, 0, 10, 0, 10, 10, 0, 10⟩
  ∧ (clickCloudflareVerify pageZero).1 = false
  ∧ ((clickCloudflareVerify pageZero).2).all (fun c => !c.isMouse) = true := by
  refine ⟨rfl, ?_, rfl, ?_, ?_⟩
  · simp [pageZero]
  · rfl
  · rfl

/-! ## Theorems: get_verification_code_from_email -/

/-- A capture of `matchSixDigits` is six digit characters. -/
theorem matchSixDigits_spec (cs ds rest : List Char)
    (h : matchSixDigits cs = some (ds, rest)) :
    ds.length = 6 ∧ ds.all Char.isDigit = true := by
  simp only [matchSixDigits] at h
  split at h
  · rename_i hc
    cases h
    rw [Bool.and_eq_true] at hc
    exact ⟨by simpa using hc.1, hc.2⟩
  · exact absurd h (by simp)

/-- A capture of `matchPatAt` is six digit characters. -/
theorem matchPatAt_spec (p : CodePattern) (cs ds : List Char)
    (h : matchPatAt p cs = some ds) :
    ds.length = 6 ∧ ds.all Char.isDigit = true := by
  simp only [matchPatAt] at h
  split at h
  · exact absurd h (by simp)
  · split at h
    · exact absurd h (by simp)
    · split at h
      · exact absurd h (by simp)
      · rename_i hsix
        split at h
        · exact absurd h (by simp)
        · cases h
          exact matchSixDigits_spec _ _ _ hsix

/-- A capture of `searchPat` is six digit characters. -/
theorem searchPat_spec (p : CodePattern) :
    ∀ (cs ds : List Char), searchPat p cs = some ds →
      ds.length = 6 ∧ ds.all Char.isDigit = true := by
  intro cs
  induction cs with
  | nil => intro ds h; exact matchPatAt_spec p [] ds h
  | cons c rest ih =>
    intro ds h
    simp only [searchPat] at h
    split at h
    · rename_i hat
      cases h
      exact matchPatAt_spec p (c :: rest) ds hat
    · exact ih ds h

/-- A capture of `tryPatterns` is six digit characters. -/
theorem tryPatterns_spec :
    ∀ (ps : List CodePattern) (content ds : List Char),
      tryPatterns ps content = some ds →
      ds.length = 6 ∧ ds.all Char.isDigit = true := by
  intro ps
  induction ps with
  | nil => intro content ds h; simp [tryPatterns] at h
  | cons p rest ih =>
    intro content ds h
    simp only [tryPatterns] at h
    split at h
    · rename_i hs
      cases h
      exact searchPat_spec p content ds hs
    · exact ih content ds h

/-- A code extracted from an email body is a string of six digits. -/
theorem extractCode_spec (content : String) (code : String)
    (h : extractCode content = some code) :
    code.length = 6 ∧ code.toList.all Char.isDigit = true := by
  simp only [extractCode, Option.map_eq_some'] at h
  obtain ⟨ds, hds, hcode⟩ := h
  obtain ⟨hlen, hdig⟩ := tryPatterns_spec codePatterns content.toList ds hds
  subst hcode
  exact ⟨hlen, hdig⟩

/-- A code produced by the email scan is a string of six digits. -/
theorem scanEmails_spec :
    ∀ (emails : List EmailMsg) (code : String),
      scanEmails emails = some code →
      code.length = 6 ∧ code.toList.all Char.isDigit = true := by
  intro emails
  induction emails with
  | nil => intro code h; simp [scanEmails] at h
  | cons e rest ih =>
    intro code h
    simp only [scanEmails] at h
    split at h
    · cases hx : extractCode e.content with
      | none => rw [hx] at h; exact ih code h
      | some c =>
        rw [hx] at h
        cases h
        exact extractCode_spec e.content code hx
    · exact ih code h

/-- A code produced by one polling attempt is a string of six digits. -/
theorem attemptResult_spec (o : AttemptOutcome) (code : String)
    (h : attemptResult o = some code) :
    code.length = 6 ∧ code.toList.all Char.isDigit = true := by
  cases o with
  | response emails =>
    simp only [attemptResult] at h
    split at h
    · exact absurd h (by simp)
    · exact scanEmails_spec emails code h
  | httpError => simp [attemptResult] at h
  | urlError => simp [attemptResult] at h
  | otherError => simp [attemptResult] at h

/-- A code produced by the retry loop is a string of six digits. -/
theorem runAttempts_spec (world : Nat → AttemptOutcome) :
    ∀ (b i : Nat) (code : String), runAttempts world i b = some code →
      code.length = 6 ∧ code.toList.all Char.isDigit = true := by
  intro b
  induction b with
  | zero => intro i code h; simp [runAttempts] at h
  | succ b ih =>
    intro i code h
    simp only [runAttempts] at h
    split at h
    · rename_i ha
      cases h
      exact attemptResult_spec _ _ ha
    · exact ih (i + 1) code h

/-- The retry loop reads only the attempts it is budgeted for. -/
theorem runAttempts_frame :
    ∀ (b : Nat) (w w' : Nat → AttemptOutcome) (i : Nat),
      (∀ j, j < b → w (i + j) = w' (i + j)) →
      runAttempts w i b = runAttempts w' i b := by
  intro b
  induction b with
  | zero => intro w w' i _; rfl
  | succ b ih =>
    intro w w' i h
    have h0 : w i = w' i := by simpa using h 0 (Nat.succ_pos b)
    simp only [runAttempts, h0]
    rw [ih w w' (i + 1) (fun j hj => by
      have := h (j + 1) (by omega)
      simpa [Nat.add_assoc, Nat.add_comm 1 j] using this)]

/-- When every budgeted attempt yields nothing, the loop returns `none`. -/
theorem runAttempts_all_none :
    ∀ (b : Nat) (w : Nat → AttemptOutcome) (i : Nat),
      (∀ j, j < b → attemptResult (w (i + j)) = none) →
      runAttempts w i b = none := by
  intro b
  induction b with
  | zero => intro w i _; rfl
  | succ b ih =>
    intro w i h
    have h0 : attemptResult (w i) = none := by simpa using h 0 (Nat.succ_pos b)
    simp only [runAttempts, h0]
    exact ih w (i + 1) (fun j hj => by
      have := h (j + 1) (by omega)
      simpa [Nat.add_assoc, Nat.add_comm 1 j] using this)

/-- Claim C6: `get_verification_code_from_email` polls at most 10 times (its
result depends only on attempts 0..9); every non-None return value is a
string of exactly 6 decimal digits; when all 10 attempts produce nothing it
returns None; a non-Augment sender is skipped; an Augment email yields the
first capture of the first matching pattern; and the pattern loop is
first-match-wins. -/
theorem claim_C6_verification_code :
    (∀ (world : Nat → AttemptOutcome) (code : String),
       getVerificationCodeFromEmail world = some code →
       code.length = 6 ∧ code.toList.all Char.isDigit = true)
  ∧ (∀ w w' : Nat → AttemptOutcome, (∀ i, i < 10 → w i = w' i) →
       getVerificationCodeFromEmail w = getVerificationCodeFromEmail w')
  ∧ (∀ w : Nat → AttemptOutcome, (∀ i, i < 10 → attemptResult (w i) = none) →
       getVerificationCodeFromEmail w = none)
  ∧ (∀ (e : EmailMsg) (rest : List EmailMsg), isAugmentSender e = false →
       scanEmails (e :: rest) = scanEmails rest)
  ∧ (∀ (e : EmailMsg) (rest : List EmailMsg) (code : String),
       isAugmentSender e = true → extractCode e.content = some code →
       scanEmails (e :: rest) = some code)
  ∧ (∀ (p : CodePattern) (ps : List CodePattern) (content ds : List Char),
       searchPat p content = some ds →
       tryPatterns (p :: ps) content = some ds)
  ∧ (∀ (p : CodePattern) (ps : List CodePattern) (content : List Char),
       searchPat p content = none →
       tryPatterns (p :: ps) content = tryPatterns ps content) := by
  refine ⟨?_, ?_, ?_, ?_, ?_, ?_, ?_⟩
  · intro world code h
    exact runAttempts_spec world 10 0 code h
  · intro w w' h
    exact runAttempts_frame 10 w w' 0 (fun j hj => by simpa using h j hj)
  · intro w h
    exact runAttempts_all_none 10 w 0 (fun j hj => by simpa using h j hj)
  · intro e rest h
    simp [scanEmails, h]
  · intro e rest code hs hx
    simp [scanEmails, hs, hx]
  · intro p ps content ds h
    simp [tryPatterns, h]
  · intro p ps content h
    simp [tryPatterns, h]

/-! ## Theorems: augment_register.main step 6 -/

/-- Claim C4: `EmailUtils` defines no `save_email_to_file` (the function of
that name lives at module level in bitbrowser_create_window.py), so in
`augment_register.main` every run that obtains a non-None email raises
`AttributeError` at `EmailUtils.save_email_to_file(email)` and never
reaches the later sign-in, verification, payment-link and session-cookie
steps. -/
theorem claim_C4_save_email_to_file_missing :
    emailUtilsHasAttr "save_email_to_file" = false
  ∧ bitbrowserCreateWindowFunctions.contains "save_email_to_file" = true
  ∧ (∀ e : String, mainReachesLaterSteps (some e) = .error .attributeError)
  ∧ (∀ e : String, mainReachesLaterSteps (some e) ≠ .ok true)
  ∧ mainReachesLaterSteps none = .ok false := by
  have h1 : emailUtilsHasAttr "save_suffix" = true := by decide
  have h2 : emailUtilsHasAttr "save_email_to_file" = false := by decide
  refine ⟨h2, by decide, ?_, ?_, rfl⟩
  · intro e
    simp [mainReachesLaterSteps, h1, h2]
  · intro e
    simp [mainReachesLaterSteps, h1, h2]
